import Mathlib

/-!
# Verification of the certmagic dual-format certificate store

Shallow embedding of the repository's storage-mode rollout resolver
(`storagemode.go`), the dual-format certificate store (`bundle.go`) and the
lock-lease renewal duration (specified by `config_test.go`), with theorems
settling the spec's claims about them.

Modelling conventions:
* Go machine integers are `Nat`/`Int` with explicit `% 2^32` where overflow
  matters (the FNV-1a hash).
* Byte strings are modelled symbolically by the inductive `Bytes`: raw
  non-JSON byte lists (all PEM payloads are such), the JSON encoding of a
  certificate bundle, and the JSON encoding of a legacy metadata object.
  Go's `json.Unmarshal` into a struct is lenient (unknown fields ignored,
  missing fields zeroed), which the `unmarshal*` functions mirror.
* The opaque `IssuerData` payload is embedded as its JSON value (a `String`):
  Go's `json.MarshalIndent` re-indents the raw bytes but preserves the JSON
  value, and the repository's own test (`config_test.go:73-76`) compares
  `IssuerData` only modulo whitespace.
* `time.Time` is `GoTime := Nat`, with `0` the zero time and the clock passed
  explicitly as a `now` parameter.
* The external storage backend (spec §6) is a key/value map plus fault flags
  for its fallible `Load`/`Store`/`Delete` operations; `Exists` is a plain
  boolean test, as in the `Storage` interface.
* The external `idna.ToASCII` normalization is passed as an explicit function
  parameter `toA : String → Except String String`.
* Go `strings.ToLower` is modelled on the ASCII range (the three recognized
  mode names are ASCII).
* Loggers are dropped: logging has no effect on state or results.
-/

namespace Certmagic

/-! ## Rollout resolver (`storagemode.go`) -/

/-- `StorageModeLegacy` (storagemode.go:38). -/
def StorageModeLegacy : String := "legacy"

/-- `StorageModeTransition` (storagemode.go:39). -/
def StorageModeTransition : String := "transition"

/-- `StorageModeBundle` (storagemode.go:40). -/
def StorageModeBundle : String := "bundle"

/-- One step of FNV-1a: `h = (h XOR b) * 16777619` on 32 bits. -/
def fnv32aStep (h b : Nat) : Nat := ((h ^^^ b) * 16777619) % 2 ^ 32

/-- 32-bit FNV-1a hash of a byte sequence (`hash/fnv`, `fnv.New32a`):
offset basis 2166136261, per byte xor-then-multiply by the 32-bit FNV prime. -/
def fnv32a (bs : List Nat) : Nat := bs.foldl fnv32aStep 2166136261

/-- UTF-8 encoding of one Unicode code point. -/
def utf8EncodeCodePoint (n : Nat) : List Nat :=
  if n < 0x80 then [n]
  else if n < 0x800 then [0xC0 + n / 64, 0x80 + n % 64]
  else if n < 0x10000 then [0xE0 + n / 4096, 0x80 + n / 64 % 64, 0x80 + n % 64]
  else [0xF0 + n / 262144, 0x80 + n / 4096 % 64, 0x80 + n / 64 % 64, 0x80 + n % 64]

/-- The bytes of a Go string: UTF-8 encoding, as produced by `[]byte(domain)`. -/
def utf8Bytes (s : String) : List Nat :=
  (s.data.map fun c => utf8EncodeCodePoint c.toNat).flatten

/-- `RolloutBucketForDomain` (storagemode.go:81-85): FNV-1a hash of the domain's
bytes, modulo 100. -/
def RolloutBucketForDomain (domain : String) : Nat := fnv32a (utf8Bytes domain) % 100

/-- `StorageModeForDomain` (storagemode.go:67-79), with the process globals
`StorageMode` and `StorageModeRolloutPercent` passed explicitly. The rollout
percent is a Go `int`, hence `Int`. -/
def StorageModeForDomain (storageMode : String) (rolloutPercent : Int)
    (domain : String) : String :=
  if storageMode = StorageModeBundle then StorageModeBundle
  else if storageMode ≠ StorageModeTransition then StorageModeLegacy
  else if (RolloutBucketForDomain domain : Int) < rolloutPercent then StorageModeTransition
  else StorageModeLegacy

/-- `ConfigureStorageMode` (storagemode.go:53-56): sets the two process globals
verbatim; modelled as returning the configured pair. -/
def ConfigureStorageMode (mode : String) (rolloutPercent : Int) : String × Int :=
  (mode, rolloutPercent)

/-- `init` (storagemode.go:58-65): reads the raw environment value of
`CERTMAGIC_STORAGE_MODE` (no lowering, no validation; an unset variable reads
as `""`) and the rollout percent (`strconv.Atoi` result, `0` when unset or
malformed, modelled as an `Option Int`), and configures the globals. -/
def initStorageMode (env : String) (rolloutPercentEnv : Option Int) : String × Int :=
  ConfigureStorageMode env (rolloutPercentEnv.getD 0)

/-- Go `strings.ToLower`, modelled on the ASCII range: `A`-`Z` map to
`a`-`z`, every other character is unchanged. -/
def goToLower (s : String) : String :=
  String.mk (s.data.map fun c =>
    if 'A' ≤ c ∧ c ≤ 'Z' then Char.ofNat (c.toNat + 32) else c)

/-- `GetStorageMode` (bundle.go:53-61): lower-cases the environment value
(the local `mode`, inlined here) and returns it when it is one of the three
recognized modes, else `legacy`. An unset environment variable reads as `""`. -/
def GetStorageMode (env : String) : String :=
  if goToLower env = StorageModeLegacy ∨ goToLower env = StorageModeTransition ∨
      goToLower env = StorageModeBundle then
    goToLower env
  else StorageModeLegacy

/-! ## Data model (`bundle.go`) -/

/-- Go time. `0` is the zero `time.Time`; `time.Time.IsZero` is `· = 0`. -/
abbrev GoTime := Nat

/-- The byte content of one stored item, modelled symbolically (see the file
header): `raw` is a byte string that is not valid JSON (every PEM payload is
such), `bundleJson` is the JSON encoding of a `CertificateBundle` with the
given field values, `metaJson` the JSON encoding of the legacy metadata object
(a `CertificateResource` with only `sans` and `issuer_data`; the PEM fields
carry the `json:"-"` tag and are never encoded). -/
inductive Bytes where
  | raw (bs : List Nat)
  | bundleJson (version : Int) (sans : List String) (certPEM keyPEM : Bytes)
      (issuerData : String) (createdAt updatedAt : GoTime)
  | metaJson (sans : List String) (issuerData : String)

/-- `CertificateResource` (declared in the repository outside src/; its fields
are fixed by their uses in bundle.go and config_test.go): SANs, the two PEM
payloads, the opaque issuer data, and the unexported issuer-key back-reference
set on load. -/
structure CertificateResource where
  SANs : List String
  CertificatePEM : Bytes
  PrivateKeyPEM : Bytes
  IssuerData : String
  issuerKey : String

/-- `BundleVersion` (bundle.go:65). -/
def BundleVersion : Int := 1

/-- `CertificateBundle` (bundle.go:70-91). -/
structure CertificateBundle where
  Version : Int
  SANs : List String
  CertificatePEM : Bytes
  PrivateKeyPEM : Bytes
  IssuerData : String
  CreatedAt : GoTime
  UpdatedAt : GoTime

/-- `json.MarshalIndent` of a bundle: its JSON encoding. It cannot fail on
this type. -/
def CertificateBundle.marshal (b : CertificateBundle) : Bytes :=
  .bundleJson b.Version b.SANs b.CertificatePEM b.PrivateKeyPEM b.IssuerData
    b.CreatedAt b.UpdatedAt

/-- `json.Unmarshal` of stored bytes into a `CertificateBundle`. Go decoding
is lenient: a legacy metadata object is also a valid JSON object and decodes
with the matching `sans` and `issuer_data` fields and zero values elsewhere;
non-JSON bytes fail. -/
def Bytes.unmarshalBundle : Bytes → Option CertificateBundle
  | .bundleJson v sans c k d ca ua => some ⟨v, sans, c, k, d, ca, ua⟩
  | .metaJson sans d => some ⟨0, sans, .raw [], .raw [], d, 0, 0⟩
  | .raw _ => none

/-- `json.Unmarshal` of stored metadata bytes into a `CertificateResource`
(bundle.go:472): only the `sans` and `issuer_data` fields are decoded (the PEM
fields are tagged `json:"-"`). A bundle object stored at a metadata key also
decodes leniently, with its `sans` and `issuer_data`. -/
def Bytes.unmarshalMeta : Bytes → Option (List String × String)
  | .metaJson sans d => some (sans, d)
  | .bundleJson _ sans _ _ d _ _ => some (sans, d)
  | .raw _ => none

/-- Modelled from the spec: `CertificateResource.NamesKey` is declared outside
src/. The spec (§3) says it is "a stable key derived from the primary
name/SANs"; we model it as the primary SAN. -/
def CertificateResource.NamesKey (res : CertificateResource) : String :=
  res.SANs.headD ""

/-! ## Key namespace and storage backend -/

/-- Modelled from the spec: the `StorageKeys` key namespace is declared outside
src/. The spec (§3) fixes "five key shapes per (issuer, domain)" as pure,
stable derivations; the five shapes are pairwise distinct keys, modelled as
the five constructors. -/
inductive SKey where
  | SiteCert (issuerKey certKey : String)
  | SitePrivateKey (issuerKey certKey : String)
  | SiteMeta (issuerKey certKey : String)
  | SiteBundle (issuerKey certKey : String)
  | CertsSitePrefix (issuerKey certKey : String)
  deriving DecidableEq

/-- Go error values produced by the store and the backend, structurally. -/
inductive GoErr where
  /-- `fs.ErrNotExist`: the key is absent. -/
  | errNotExist
  /-- A backend I/O failure of `Storage.Load` at a key. -/
  | backendLoad (k : SKey)
  /-- A backend I/O failure of `Storage.Store` at a key. -/
  | backendStore (k : SKey)
  /-- A backend I/O failure of `Storage.Delete` at a key. -/
  | backendDelete (k : SKey)
  /-- A `json.Unmarshal` failure. -/
  | jsonErr
  /-- `fmt.Errorf("<msg>: %v", e)`. -/
  | wrap (msg : String) (e : GoErr)
  /-- The `idna.ToASCII` failure, wrapped as
  `fmt.Errorf("converting '%s' to ASCII: %v", domain, err)`. -/
  | asciiErr (domain msg : String)
  /-- An error returned by a caller-supplied update function. -/
  | user (msg : String)
  /-- `errors.Join` of the collected errors. -/
  | joined (es : List GoErr)

/-- The external storage capability (spec §6): a key/value map plus fault
flags injecting backend I/O failures into the three fallible operations. -/
structure Storage where
  data : SKey → Option Bytes
  loadFails : SKey → Bool
  storeFails : SKey → Bool
  deleteFails : SKey → Bool

/-- `Storage.Load`: absence is `fs.ErrNotExist`, distinguishable from other
I/O errors. -/
def Storage.load (s : Storage) (k : SKey) : Except GoErr Bytes :=
  if s.loadFails k then .error (.backendLoad k)
  else
    match s.data k with
    | some v => .ok v
    | none => .error .errNotExist

/-- `Storage.Store`: on success the key maps to the new value; on failure the
state is unchanged. -/
def Storage.store (s : Storage) (k : SKey) (v : Bytes) : Except GoErr Storage :=
  if s.storeFails k then .error (.backendStore k)
  else .ok { s with data := fun k2 => if k2 = k then some v else s.data k2 }

/-- `Storage.Exists`: a plain boolean presence test. -/
def Storage.exists (s : Storage) (k : SKey) : Bool := (s.data k).isSome

/-- `Storage.Delete`: on success the key is removed; on failure the state is
unchanged. -/
def Storage.delete (s : Storage) (k : SKey) : Except GoErr Storage :=
  if s.deleteFails k then .error (.backendDelete k)
  else .ok { s with data := fun k2 => if k2 = k then none else s.data k2 }

/-- A backend with no injected faults (the well-behaved backend of the
repository's tests, e.g. `FileStorage` on a healthy disk). -/
def noFaults (s : Storage) : Prop :=
  s.loadFails = (fun _ => false) ∧ s.storeFails = (fun _ => false) ∧
    s.deleteFails = (fun _ => false)

/-! ## The certificate store (`bundle.go`) -/

/-- `CertStore` (bundle.go:96-100). The logger is dropped (logging does not
affect state or results). -/
structure CertStore where
  mode : String

/-- `saveBundle` (bundle.go:160-192): build the bundle with `UpdatedAt = now`,
carry the `CreatedAt` of a loadable and decodable prior bundle at the same
key, default a zero `CreatedAt` to `UpdatedAt`, and store the encoding.
`json.MarshalIndent` cannot fail on this type. -/
def CertStore.saveBundle (_cs : CertStore) (now : GoTime) (s : Storage)
    (issuerKey certKey : String) (res : CertificateResource) :
    Except GoErr Unit × Storage :=
  let bundle : CertificateBundle :=
    { Version := BundleVersion, SANs := res.SANs,
      CertificatePEM := res.CertificatePEM, PrivateKeyPEM := res.PrivateKeyPEM,
      IssuerData := res.IssuerData, CreatedAt := 0, UpdatedAt := now }
  let bundleKey := SKey.SiteBundle issuerKey certKey
  let bundle :=
    match s.load bundleKey with
    | .ok existingData =>
      match existingData.unmarshalBundle with
      | some existing => { bundle with CreatedAt := existing.CreatedAt }
      | none => bundle
    | .error _ => bundle
  let bundle :=
    if bundle.CreatedAt = 0 then { bundle with CreatedAt := bundle.UpdatedAt }
    else bundle
  match s.store bundleKey bundle.marshal with
  | .ok s2 => (.ok (), s2)
  | .error e => (.error (.wrap "storing certificate bundle" e), s)

/-- Modelled from the spec: `storeTx` is declared outside src/. The spec
(§4.1) describes the legacy multi-key write as writing the keys in a fixed
order, attempting best-effort rollback (deletion) of already-written keys on a
failure, and reporting the failure. -/
def storeTx (s : Storage) (kvs : List (SKey × Bytes)) : Except GoErr Unit × Storage :=
  match kvs with
  | [] => (.ok (), s)
  | (k, v) :: rest =>
    match s.store k v with
    | .error e => (.error e, s)
    | .ok s2 =>
      match storeTx s2 rest with
      | (.ok _, s3) => (.ok (), s3)
      | (.error e, s3) =>
        match s3.delete k with
        | .ok s4 => (.error e, s4)
        | .error _ => (.error e, s3)

/-- `saveLegacy` (bundle.go:195-220): marshal the metadata object (cannot
fail) and write private key, certificate, metadata in that order through
`storeTx`. -/
def CertStore.saveLegacy (_cs : CertStore) (s : Storage)
    (issuerKey certKey : String) (res : CertificateResource) :
    Except GoErr Unit × Storage :=
  storeTx s
    [(SKey.SitePrivateKey issuerKey certKey, res.PrivateKeyPEM),
     (SKey.SiteCert issuerKey certKey, res.CertificatePEM),
     (SKey.SiteMeta issuerKey certKey, .metaJson res.SANs res.IssuerData)]

/-- The loop body of `deleteLegacyFiles` (bundle.go:488-498): delete the key
when present; a deletion failure is only logged, leaving the state as is. -/
def delIfExists (st : Storage) (k : SKey) : Storage :=
  if st.exists k then
    match st.delete k with
    | .ok st2 => st2
    | .error _ => st
  else st

/-- `deleteLegacyFiles` (bundle.go:481-499): delete the certificate, private
key and metadata keys in that order, when present; failures are only logged. -/
def CertStore.deleteLegacyFiles (_cs : CertStore) (s : Storage)
    (issuerKey certKey : String) : Storage :=
  [SKey.SiteCert issuerKey certKey, SKey.SitePrivateKey issuerKey certKey,
   SKey.SiteMeta issuerKey certKey].foldl delIfExists s

/-- `Save` (bundle.go:132-157): dispatch on the mode; `transition` writes
bundle then legacy, `bundle` writes the bundle and best-effort cleans legacy
files, every other mode writes legacy only. -/
def CertStore.Save (cs : CertStore) (now : GoTime) (s : Storage)
    (issuerKey : String) (res : CertificateResource) :
    Except GoErr Unit × Storage :=
  let certKey := res.NamesKey
  if cs.mode = StorageModeLegacy then cs.saveLegacy s issuerKey certKey res
  else if cs.mode = StorageModeTransition then
    match cs.saveBundle now s issuerKey certKey res with
    | (.error e, s2) => (.error e, s2)
    | (.ok _, s2) => cs.saveLegacy s2 issuerKey certKey res
  else if cs.mode = StorageModeBundle then
    match cs.saveBundle now s issuerKey certKey res with
    | (.error e, s2) => (.error e, s2)
    | (.ok _, s2) => (.ok (), cs.deleteLegacyFiles s2 issuerKey certKey)
  else cs.saveLegacy s issuerKey certKey res

/-- `decodeBundle` (bundle.go:429-449): unmarshal the bundle; a version newer
than `BundleVersion` only logs a warning. -/
def CertStore.decodeBundle (_cs : CertStore) (data : Bytes) (issuerKey : String) :
    Except GoErr CertificateResource :=
  match data.unmarshalBundle with
  | none => .error (.wrap "decoding certificate bundle" .jsonErr)
  | some bundle =>
    .ok { SANs := bundle.SANs, CertificatePEM := bundle.CertificatePEM,
          PrivateKeyPEM := bundle.PrivateKeyPEM, IssuerData := bundle.IssuerData,
          issuerKey := issuerKey }

/-- `loadLegacy` (bundle.go:452-477): load the three legacy keys, failing on
the first error; decode the metadata into the resource. -/
def CertStore.loadLegacy (_cs : CertStore) (s : Storage)
    (issuerKey normalizedName : String) : Except GoErr CertificateResource :=
  match s.load (.SitePrivateKey issuerKey normalizedName) with
  | .error e => .error e
  | .ok keyBytes =>
    match s.load (.SiteCert issuerKey normalizedName) with
    | .error e => .error e
    | .ok certBytes =>
      match s.load (.SiteMeta issuerKey normalizedName) with
      | .error e => .error e
      | .ok metaBytes =>
        match metaBytes.unmarshalMeta with
        | none => .error (.wrap "decoding certificate metadata" .jsonErr)
        | some (sans, issuerData) =>
          .ok { SANs := sans, CertificatePEM := certBytes,
                PrivateKeyPEM := keyBytes, IssuerData := issuerData,
                issuerKey := issuerKey }

/-- `Load` (bundle.go:225-249): normalize the name; `transition`/`bundle` try
the bundle key and, only when that backend load fails, fall back to the legacy
read; a loaded bundle is decoded by `decodeBundle` (whose error is returned). -/
def CertStore.Load (toA : String → Except String String) (cs : CertStore)
    (s : Storage) (issuerKey certNamesKey : String) :
    Except GoErr CertificateResource :=
  match toA certNamesKey with
  | .error msg => .error (.asciiErr certNamesKey msg)
  | .ok normalizedName =>
    if cs.mode = StorageModeLegacy then cs.loadLegacy s issuerKey normalizedName
    else if cs.mode = StorageModeTransition ∨ cs.mode = StorageModeBundle then
      match s.load (.SiteBundle issuerKey normalizedName) with
      | .ok bundleData => cs.decodeBundle bundleData issuerKey
      | .error _ => cs.loadLegacy s issuerKey normalizedName
    else cs.loadLegacy s issuerKey normalizedName

/-- `Exists` (bundle.go:254-286): normalization failure is `false`; legacy
presence needs all three keys; `transition`/`bundle` check the bundle key
first, then legacy. -/
def CertStore.Exists (toA : String → Except String String) (cs : CertStore)
    (s : Storage) (issuerKey domain : String) : Bool :=
  match toA domain with
  | .error _ => false
  | .ok n =>
    let legacyExists :=
      s.exists (.SiteCert issuerKey n) && s.exists (.SitePrivateKey issuerKey n) &&
        s.exists (.SiteMeta issuerKey n)
    if cs.mode = StorageModeLegacy then legacyExists
    else if cs.mode = StorageModeTransition ∨ cs.mode = StorageModeBundle then
      if s.exists (.SiteBundle issuerKey n) then true else legacyExists
    else legacyExists

/-- `Delete` (bundle.go:290-325): delete the bundle key when present,
collecting a failure; best-effort delete the legacy files (failures logged
only); best-effort delete the site prefix (failure logged only); return the
collected errors joined, if any. -/
def CertStore.Delete (toA : String → Except String String) (cs : CertStore)
    (s : Storage) (issuerKey domain : String) : Except GoErr Unit × Storage :=
  match toA domain with
  | .error msg => (.error (.asciiErr domain msg), s)
  | .ok n =>
    let errsAndS1 :=
      if s.exists (.SiteBundle issuerKey n) then
        match s.delete (.SiteBundle issuerKey n) with
        | .ok s2 => (([] : List GoErr), s2)
        | .error e => ([GoErr.wrap "deleting bundle" e], s)
      else ([], s)
    let errs := errsAndS1.1
    let s2 := cs.deleteLegacyFiles errsAndS1.2 issuerKey n
    let s3 := delIfExists s2 (.CertsSitePrefix issuerKey n)
    if errs.length > 0 then (.error (.joined errs), s3) else (.ok (), s3)

/-- `UpdateMetadata` (bundle.go:330-353): load the resource (through `Load`,
which normalizes again), apply the update function to the issuer data,
returning without a write on its failure, and save the updated resource. -/
def CertStore.UpdateMetadata (toA : String → Except String String)
    (cs : CertStore) (now : GoTime) (s : Storage) (issuerKey domain : String)
    (updateFn : String → Except String String) : Except GoErr Unit × Storage :=
  match toA domain with
  | .error msg => (.error (.asciiErr domain msg), s)
  | .ok n =>
    match cs.Load toA s issuerKey n with
    | .error e => (.error (.wrap "loading certificate for metadata update" e), s)
    | .ok certRes =>
      match updateFn certRes.IssuerData with
      | .error msg => (.error (.wrap "updating metadata" (.user msg)), s)
      | .ok newIssuerData =>
        cs.Save now s issuerKey { certRes with IssuerData := newIssuerData }

/-- `LoadPrivateKey` (bundle.go:357-386): `transition`/`bundle` try the bundle
key and return its decoded private key (a decode failure is an error); when
the bundle load fails they fall back to the raw legacy key; every other mode
reads the legacy key directly. -/
def CertStore.LoadPrivateKey (toA : String → Except String String)
    (cs : CertStore) (s : Storage) (issuerKey domain : String) :
    Except GoErr Bytes :=
  match toA domain with
  | .error msg => .error (.asciiErr domain msg)
  | .ok n =>
    if cs.mode = StorageModeLegacy then s.load (.SitePrivateKey issuerKey n)
    else if cs.mode = StorageModeTransition ∨ cs.mode = StorageModeBundle then
      match s.load (.SiteBundle issuerKey n) with
      | .ok bundleData =>
        match bundleData.unmarshalBundle with
        | none => .error (.wrap "decoding bundle" .jsonErr)
        | some bundle => .ok bundle.PrivateKeyPEM
      | .error _ => s.load (.SitePrivateKey issuerKey n)
    else s.load (.SitePrivateKey issuerKey n)

/-- `Migrate` (bundle.go:505-541): success without action when a bundle
already exists; `fs.ErrNotExist` when no legacy certificate key exists;
otherwise legacy read, bundle write, best-effort legacy cleanup. -/
def CertStore.Migrate (toA : String → Except String String) (cs : CertStore)
    (now : GoTime) (s : Storage) (issuerKey domain : String) :
    Except GoErr Unit × Storage :=
  match toA domain with
  | .error msg => (.error (.asciiErr domain msg), s)
  | .ok n =>
    if s.exists (.SiteBundle issuerKey n) then (.ok (), s)
    else if !s.exists (.SiteCert issuerKey n) then (.error .errNotExist, s)
    else
      match cs.loadLegacy s issuerKey n with
      | .error e => (.error (.wrap "loading legacy certificate" e), s)
      | .ok certRes =>
        match cs.saveBundle now s issuerKey n certRes with
        | (.error e, s2) => (.error (.wrap "saving as bundle" e), s2)
        | (.ok _, s2) => (.ok (), cs.deleteLegacyFiles s2 issuerKey n)

/-! ## Lock-lease renewal (`config_test.go`) -/

/-- Modelled from the spec: `retryIntervals` indexing with its cap is declared
outside src/ (only `TestRenewLockLeaseDuration` is in src). The spec (§4.3)
fixes "a fixed ordered sequence of retry intervals for increasing attempt
numbers; once the attempt number exceeds the sequence length, a fixed maximum
interval is used instead". -/
def retryIntervalFor (retryIntervals : List Nat) (maxRetryDuration : Nat)
    (attempt : Nat) : Nat :=
  if h : attempt < retryIntervals.length then retryIntervals.get ⟨attempt, h⟩
  else maxRetryDuration

/-- Modelled from the spec: `Config.renewLockLease` is declared outside src/.
The spec (§4.3) fixes the requested lease duration as "the current retry
interval (by attempt number) plus a fixed certificate obtain timeout
constant", and the renewal as a no-op success on a backend without lease
support. The result is the requested duration, when a request is made. -/
def renewLockLease (supportsLease : Bool) (retryIntervals : List Nat)
    (maxRetryDuration certObtainTimeout : Nat) (attempt : Nat) : Option Nat :=
  if supportsLease then
    some (retryIntervalFor retryIntervals maxRetryDuration attempt + certObtainTimeout)
  else none

/-! ## Concrete inputs for witnesses and counterexamples -/

/-- A normalization that is the identity (every ASCII lower-case name is its
own IDNA ASCII form). -/
def okToA : String → Except String String := fun s => .ok s

/-- The empty, fault-free backend. -/
def emptyStorage : Storage :=
  ⟨fun _ => none, fun _ => false, fun _ => false, fun _ => false⟩

/-- A sample certificate resource for `example.com`. -/
def sampleRes : CertificateResource :=
  ⟨["example.com"], .raw [10], .raw [11], "{}", "acme"⟩

/-- A fault-free backend holding a well-formed legacy triple for
`("i", "example.com")` and nothing else. -/
def legacyTripleStorage : Storage :=
  ⟨fun k =>
    match k with
    | .SitePrivateKey "i" "example.com" => some (.raw [4])
    | .SiteCert "i" "example.com" => some (.raw [3])
    | .SiteMeta "i" "example.com" => some (.metaJson ["example.com"] "{}")
    | _ => none,
   fun _ => false, fun _ => false, fun _ => false⟩

/-- A fault-free backend where the bundle key of `("i", "d")` holds bytes that
fail to decode as a bundle (`raw` is not valid JSON), while a well-formed
legacy triple for the same identity is present. -/
def undecodableBundleStorage : Storage :=
  ⟨fun k =>
    match k with
    | .SiteBundle "i" "d" => some (.raw [45])
    | .SitePrivateKey "i" "d" => some (.raw [1])
    | .SiteCert "i" "d" => some (.raw [2])
    | .SiteMeta "i" "d" => some (.metaJson ["d"] "{}")
    | _ => none,
   fun _ => false, fun _ => false, fun _ => false⟩

/-- A backend holding only the legacy certificate key of `("i", "d")`, whose
deletion fails (the backend refuses it); all other operations succeed. -/
def failingLegacyDeleteStorage : Storage :=
  ⟨fun k =>
    match k with
    | .SiteCert "i" "d" => some (.raw [2])
    | _ => none,
   fun _ => false, fun _ => false,
   fun k =>
    match k with
    | .SiteCert "i" "d" => true
    | _ => false⟩

/-- A fault-free backend whose bundle key for `("i", "example.com")` holds a
decodable prior bundle with a zero `CreatedAt` (its JSON simply lacks a
meaningful `created_at`). -/
def zeroCreatedAtStorage : Storage :=
  ⟨fun k =>
    match k with
    | .SiteBundle "i" "example.com" => some (.bundleJson 1 [] (.raw []) (.raw []) "" 0 3)
    | _ => none,
   fun _ => false, fun _ => false, fun _ => false⟩

/-! ## Helper lemmas -/

theorem legacy_ne_transition : StorageModeLegacy ≠ StorageModeTransition := by decide

theorem legacy_ne_bundle : StorageModeLegacy ≠ StorageModeBundle := by decide

theorem transition_ne_legacy : StorageModeTransition ≠ StorageModeLegacy := by decide

theorem transition_ne_bundle : StorageModeTransition ≠ StorageModeBundle := by decide

theorem bundle_ne_legacy : StorageModeBundle ≠ StorageModeLegacy := by decide

theorem bundle_ne_transition : StorageModeBundle ≠ StorageModeTransition := by decide

theorem Storage.load_noFail {s : Storage} (hl : s.loadFails = fun _ => false)
    (k : SKey) :
    s.load k = match s.data k with
      | some v => .ok v
      | none => .error .errNotExist := by
  simp [Storage.load, hl]

theorem Storage.store_noFail {s : Storage} (hst : s.storeFails = fun _ => false)
    (k : SKey) (v : Bytes) :
    s.store k v = .ok { s with data := fun k2 => if k2 = k then some v else s.data k2 } := by
  simp [Storage.store, hst]

theorem Storage.ext' {a b : Storage} (h1 : ∀ k, a.data k = b.data k)
    (h2 : a.loadFails = b.loadFails) (h3 : a.storeFails = b.storeFails)
    (h4 : a.deleteFails = b.deleteFails) : a = b := by
  cases a
  cases b
  simp only [Storage.mk.injEq]
  exact ⟨funext fun k => h1 k, h2, h3, h4⟩

theorem delIfExists_data (st : Storage) (k1 k : SKey) :
    (delIfExists st k1).data k =
      if st.deleteFails k1 = false ∧ k = k1 then none else st.data k := by
  unfold delIfExists Storage.delete Storage.exists
  by_cases h2 : st.deleteFails k1
  · cases hD : st.data k1 <;> simp [hD, h2]
  · cases hD : st.data k1
    · simp only [hD, Option.isSome_none, Bool.false_eq_true, if_false]
      by_cases hk : k = k1
      · subst hk
        simp [hD, h2]
      · simp [hk]
    · simp [hD, h2]

theorem delIfExists_loadFails (st : Storage) (k1 : SKey) :
    (delIfExists st k1).loadFails = st.loadFails := by
  unfold delIfExists Storage.delete
  by_cases h1 : st.exists k1 <;> by_cases h2 : st.deleteFails k1 <;> simp [h1, h2]

theorem delIfExists_storeFails (st : Storage) (k1 : SKey) :
    (delIfExists st k1).storeFails = st.storeFails := by
  unfold delIfExists Storage.delete
  by_cases h1 : st.exists k1 <;> by_cases h2 : st.deleteFails k1 <;> simp [h1, h2]

theorem delIfExists_deleteFails (st : Storage) (k1 : SKey) :
    (delIfExists st k1).deleteFails = st.deleteFails := by
  unfold delIfExists Storage.delete
  by_cases h1 : st.exists k1 <;> by_cases h2 : st.deleteFails k1 <;> simp [h1, h2]

theorem deleteLegacyFiles_data (cs : CertStore) (s : Storage) (i ck : String)
    (k : SKey) :
    (cs.deleteLegacyFiles s i ck).data k =
      if s.deleteFails (SKey.SiteMeta i ck) = false ∧ k = SKey.SiteMeta i ck then none
      else if s.deleteFails (SKey.SitePrivateKey i ck) = false ∧
          k = SKey.SitePrivateKey i ck then none
      else if s.deleteFails (SKey.SiteCert i ck) = false ∧
          k = SKey.SiteCert i ck then none
      else s.data k := by
  unfold CertStore.deleteLegacyFiles
  simp only [List.foldl]
  simp only [delIfExists_data, delIfExists_deleteFails]

theorem deleteLegacyFiles_loadFails (cs : CertStore) (s : Storage)
    (i ck : String) :
    (cs.deleteLegacyFiles s i ck).loadFails = s.loadFails := by
  unfold CertStore.deleteLegacyFiles
  simp only [List.foldl]
  simp only [delIfExists_loadFails]

theorem deleteLegacyFiles_storeFails (cs : CertStore) (s : Storage)
    (i ck : String) :
    (cs.deleteLegacyFiles s i ck).storeFails = s.storeFails := by
  unfold CertStore.deleteLegacyFiles
  simp only [List.foldl]
  simp only [delIfExists_storeFails]

theorem deleteLegacyFiles_deleteFails (cs : CertStore) (s : Storage)
    (i ck : String) :
    (cs.deleteLegacyFiles s i ck).deleteFails = s.deleteFails := by
  unfold CertStore.deleteLegacyFiles
  simp only [List.foldl]
  simp only [delIfExists_deleteFails]

theorem deleteLegacyFiles_eq {s : Storage} (cs : CertStore)
    (hd : s.deleteFails = fun _ => false) (i ck : String) :
    cs.deleteLegacyFiles s i ck =
      { s with data := fun k =>
          if k = SKey.SiteMeta i ck then none
          else if k = SKey.SitePrivateKey i ck then none
          else if k = SKey.SiteCert i ck then none
          else s.data k } := by
  refine Storage.ext' (fun k => ?_) ?_ ?_ ?_
  · rw [deleteLegacyFiles_data]
    simp [hd]
  · rw [deleteLegacyFiles_loadFails]
  · rw [deleteLegacyFiles_storeFails]
  · rw [deleteLegacyFiles_deleteFails]

theorem storeTx3_eq {s : Storage} (hst : s.storeFails = fun _ => false)
    (k1 k2 k3 : SKey) (v1 v2 v3 : Bytes) :
    storeTx s [(k1, v1), (k2, v2), (k3, v3)] =
      (.ok (), { s with data := fun k =>
        (if k = k3 then some v3
        else if k = k2 then some v2
        else if k = k1 then some v1
        else s.data k) }) := by
  simp only [storeTx, Storage.store, hst]
  rfl

theorem saveBundle_shape {s : Storage} (cs : CertStore) (now : GoTime)
    (hst : s.storeFails = fun _ => false) (i ck : String)
    (res : CertificateResource) :
    ∃ ca : GoTime, cs.saveBundle now s i ck res =
      (.ok (), { s with data := fun k =>
        (if k = SKey.SiteBundle i ck then
          some (.bundleJson BundleVersion res.SANs res.CertificatePEM
            res.PrivateKeyPEM res.IssuerData ca now)
        else s.data k) }) := by
  unfold CertStore.saveBundle
  cases hL : s.load (SKey.SiteBundle i ck) with
  | error e =>
    refine ⟨now, ?_⟩
    simp [hL, Storage.store, hst, CertificateBundle.marshal]
  | ok v =>
    cases hU : v.unmarshalBundle with
    | none =>
      refine ⟨now, ?_⟩
      simp [hL, hU, Storage.store, hst, CertificateBundle.marshal]
    | some existing =>
      by_cases hz : existing.CreatedAt = 0
      · refine ⟨now, ?_⟩
        simp [hL, hU, hz, Storage.store, hst, CertificateBundle.marshal]
      · refine ⟨existing.CreatedAt, ?_⟩
        simp [hL, hU, hz, Storage.store, hst, CertificateBundle.marshal]

theorem Save_legacyLike_eq {s : Storage} (cs : CertStore) (now : GoTime)
    (hmode : cs.mode = StorageModeLegacy ∨
      (cs.mode ≠ StorageModeTransition ∧ cs.mode ≠ StorageModeBundle))
    (hst : s.storeFails = fun _ => false) (i : String)
    (res : CertificateResource) :
    cs.Save now s i res =
      (.ok (), { s with data := fun k =>
        (if k = SKey.SiteMeta i res.NamesKey then some (.metaJson res.SANs res.IssuerData)
        else if k = SKey.SiteCert i res.NamesKey then some res.CertificatePEM
        else if k = SKey.SitePrivateKey i res.NamesKey then some res.PrivateKeyPEM
        else s.data k) }) := by
  unfold CertStore.Save CertStore.saveLegacy
  rcases hmode with h | ⟨h2, h3⟩
  · rw [if_pos h, storeTx3_eq hst]
  · by_cases h1 : cs.mode = StorageModeLegacy
    · rw [if_pos h1, storeTx3_eq hst]
    · rw [if_neg h1, if_neg h2, if_neg h3, storeTx3_eq hst]

theorem Save_transition_eq {s : Storage} (cs : CertStore) (now : GoTime)
    (hmode : cs.mode = StorageModeTransition)
    (hst : s.storeFails = fun _ => false) (i : String)
    (res : CertificateResource) :
    ∃ ca : GoTime, cs.Save now s i res =
      (.ok (), { s with data := fun k =>
        (if k = SKey.SiteMeta i res.NamesKey then some (.metaJson res.SANs res.IssuerData)
        else if k = SKey.SiteCert i res.NamesKey then some res.CertificatePEM
        else if k = SKey.SitePrivateKey i res.NamesKey then some res.PrivateKeyPEM
        else if k = SKey.SiteBundle i res.NamesKey then
          some (.bundleJson BundleVersion res.SANs res.CertificatePEM
            res.PrivateKeyPEM res.IssuerData ca now)
        else s.data k) }) := by
  obtain ⟨ca, hsb⟩ := saveBundle_shape cs now hst i res.NamesKey res
  refine ⟨ca, ?_⟩
  unfold CertStore.Save CertStore.saveLegacy
  rw [if_neg (hmode ▸ transition_ne_legacy), if_pos hmode, hsb]
  dsimp only
  simp [storeTx, Storage.store, hst]

theorem Save_bundle_eq {s : Storage} (cs : CertStore) (now : GoTime)
    (hmode : cs.mode = StorageModeBundle)
    (hst : s.storeFails = fun _ => false)
    (hd : s.deleteFails = fun _ => false) (i : String)
    (res : CertificateResource) :
    ∃ ca : GoTime, cs.Save now s i res =
      (.ok (), { s with data := fun k =>
        (if k = SKey.SiteMeta i res.NamesKey then none
        else if k = SKey.SitePrivateKey i res.NamesKey then none
        else if k = SKey.SiteCert i res.NamesKey then none
        else if k = SKey.SiteBundle i res.NamesKey then
          some (.bundleJson BundleVersion res.SANs res.CertificatePEM
            res.PrivateKeyPEM res.IssuerData ca now)
        else s.data k) }) := by
  obtain ⟨ca, hsb⟩ := saveBundle_shape cs now hst i res.NamesKey res
  refine ⟨ca, ?_⟩
  unfold CertStore.Save
  rw [if_neg (hmode ▸ bundle_ne_legacy), if_neg (hmode ▸ bundle_ne_transition),
    if_pos hmode, hsb]
  dsimp only
  refine congrArg (Prod.mk (Except.ok ())) ?_
  refine Storage.ext' (fun k => ?_) ?_ ?_ ?_
  · rw [deleteLegacyFiles_data]
    simp [hd]
  · rw [deleteLegacyFiles_loadFails]
  · rw [deleteLegacyFiles_storeFails]
  · rw [deleteLegacyFiles_deleteFails]

theorem save_load_roundtrip (toA : String → Except String String)
    (cs : CertStore) (now : GoTime) (s : Storage) (issuerKey name : String)
    (res : CertificateResource) (hnf : noFaults s)
    (hA : toA name = .ok res.NamesKey) :
    (cs.Save now s issuerKey res).1 = .ok () ∧
    cs.Load toA (cs.Save now s issuerKey res).2 issuerKey name =
      .ok ⟨res.SANs, res.CertificatePEM, res.PrivateKeyPEM, res.IssuerData,
        issuerKey⟩ := by
  obtain ⟨hl, hst, hd⟩ := hnf
  by_cases h1 : cs.mode = StorageModeLegacy
  · rw [Save_legacyLike_eq cs now (Or.inl h1) hst issuerKey res]
    refine ⟨rfl, ?_⟩
    simp [CertStore.Load, hA, h1, CertStore.loadLegacy, Storage.load, hl,
      Bytes.unmarshalMeta]
  · by_cases h2 : cs.mode = StorageModeTransition
    · obtain ⟨ca, hS⟩ := Save_transition_eq cs now h2 hst issuerKey res
      rw [hS]
      refine ⟨rfl, ?_⟩
      simp [CertStore.Load, hA, h2, transition_ne_legacy, Storage.load, hl,
        CertStore.decodeBundle, Bytes.unmarshalBundle]
    · by_cases h3 : cs.mode = StorageModeBundle
      · obtain ⟨ca, hS⟩ := Save_bundle_eq cs now h3 hst hd issuerKey res
        rw [hS]
        refine ⟨rfl, ?_⟩
        simp [CertStore.Load, hA, h3, bundle_ne_legacy, Storage.load, hl,
          CertStore.decodeBundle, Bytes.unmarshalBundle]
      · rw [Save_legacyLike_eq cs now (Or.inr ⟨h2, h3⟩) hst issuerKey res]
        refine ⟨rfl, ?_⟩
        simp [CertStore.Load, hA, h1, h2, h3, CertStore.loadLegacy,
          Storage.load, hl, Bytes.unmarshalMeta]

theorem RolloutBucketForDomain_lt_100 (d : String) :
    RolloutBucketForDomain d < 100 :=
  Nat.mod_lt _ (by norm_num)

/-! ## Claims -/

/-- C1: For every domain string and every integer rollout percentage `p`,
`StorageModeForDomain` returns `bundle` when the global mode is `bundle`;
returns `legacy` when the global mode is neither `bundle` nor `transition`;
and when the global mode is `transition` it returns `transition` exactly when
`fnv32a(domain) mod 100 < p` (strict less-than: a domain whose bucket equals
`p` resolves to `legacy`; `p = 0` resolves every domain to `legacy` and
`p = 100` resolves every domain to `transition`). -/
theorem claim_C1_storage_mode_for_domain (mode : String) (p : Int)
    (domain : String) :
    (mode = StorageModeBundle →
      StorageModeForDomain mode p domain = StorageModeBundle) ∧
    (mode ≠ StorageModeBundle → mode ≠ StorageModeTransition →
      StorageModeForDomain mode p domain = StorageModeLegacy) ∧
    (StorageModeForDomain StorageModeTransition p domain = StorageModeTransition ↔
      (RolloutBucketForDomain domain : Int) < p) ∧
    ((RolloutBucketForDomain domain : Int) = p →
      StorageModeForDomain StorageModeTransition p domain = StorageModeLegacy) ∧
    (p = 0 →
      StorageModeForDomain StorageModeTransition p domain = StorageModeLegacy) ∧
    (p = 100 →
      StorageModeForDomain StorageModeTransition p domain = StorageModeTransition) := by
  have hchar : StorageModeForDomain StorageModeTransition p domain =
      if (RolloutBucketForDomain domain : Int) < p then StorageModeTransition
      else StorageModeLegacy := by
    simp [StorageModeForDomain, transition_ne_bundle]
  refine ⟨fun h => ?_, fun hb ht => ?_, ?_, fun he => ?_, fun h0 => ?_,
    fun h100 => ?_⟩
  · simp [StorageModeForDomain, h]
  · simp [StorageModeForDomain, hb, ht]
  · rw [hchar]
    by_cases hlt : (RolloutBucketForDomain domain : Int) < p
    · simp [hlt]
    · simp [hlt, legacy_ne_transition]
  · rw [hchar, if_neg (he ▸ lt_irrefl _)]
  · subst h0
    rw [hchar, if_neg (by exact_mod_cast Int.not_lt.mpr (Int.natCast_nonneg _))]
  · subst h100
    rw [hchar, if_pos (by exact_mod_cast RolloutBucketForDomain_lt_100 domain)]

/-- Witness for C1 at the test-table domains: bucket 49 is below a 50% rollout,
bucket 50 is not (strict boundary); `bundle` and unrecognized global modes
ignore the rollout. -/
theorem claim_C1_storage_mode_for_domain_witness :
    StorageModeForDomain "bundle" 7 "cyufsv.com" = "bundle" ∧
    StorageModeForDomain "weird" 100 "cyufsv.com" = "legacy" ∧
    StorageModeForDomain "transition" 50 "cdbbdh.com" = "transition" ∧
    StorageModeForDomain "transition" 50 "lgxeeu.com" = "legacy" :=
  ⟨(claim_C1_storage_mode_for_domain "bundle" 7 "cyufsv.com").1 rfl,
   (claim_C1_storage_mode_for_domain "weird" 100 "cyufsv.com").2.1
     (by decide) (by decide),
   (claim_C1_storage_mode_for_domain "transition" 50 "cdbbdh.com").2.2.1.mpr
     (by decide),
   (claim_C1_storage_mode_for_domain "transition" 50 "lgxeeu.com").2.2.2.1
     (by decide)⟩

/-- C8: For every attempt number `n`, the lease duration requested by the
lock-lease renewal equals the retry interval for attempt `n` plus the fixed
certificate-obtain-timeout constant; at attempt 0 it equals the first
configured retry interval plus that constant, and beyond the interval table it
equals the maximum configured retry duration plus the same constant. -/
theorem claim_C8_renew_lock_lease_duration (intervals : List Nat)
    (maxDur timeout n : Nat) :
    renewLockLease true intervals maxDur timeout n =
      some (retryIntervalFor intervals maxDur n + timeout) ∧
    (∀ i0 rest, intervals = i0 :: rest →
      renewLockLease true intervals maxDur timeout 0 = some (i0 + timeout)) ∧
    (intervals.length ≤ n →
      renewLockLease true intervals maxDur timeout n = some (maxDur + timeout)) := by
  refine ⟨rfl, ?_, fun h => ?_⟩
  · rintro i0 rest rfl
    simp [renewLockLease, retryIntervalFor]
  · simp [renewLockLease, retryIntervalFor, Nat.not_lt.mpr h]

/-- Witness for C8 with a two-entry interval table: attempt 0 requests the
first interval plus the timeout, attempt 7 the maximum duration plus the
timeout. -/
theorem claim_C8_renew_lock_lease_duration_witness :
    renewLockLease true [60, 120] 600 300 0 = some 360 ∧
    renewLockLease true [60, 120] 600 300 7 = some 900 :=
  ⟨(claim_C8_renew_lock_lease_duration [60, 120] 600 300 0).2.1 60 [120] rfl,
   (claim_C8_renew_lock_lease_duration [60, 120] 600 300 7).2.2 (by decide)⟩

/-- C9 counterexample: the startup `init` of storagemode.go stores the raw
environment value. With the value `"BUNDLE"` the configured global mode is
`"BUNDLE"`, under which `StorageModeForDomain` resolves every domain to
`legacy` — unlike the lower-case `"bundle"` — so the startup-resolved mode is
not case-insensitive, although `GetStorageMode` maps `"BUNDLE"` to `bundle`. -/
theorem claim_C9_counterexample :
    (initStorageMode "BUNDLE" none).1 = "BUNDLE" ∧
    StorageModeForDomain (initStorageMode "BUNDLE" none).1 100 "cyufsv.com" =
      "legacy" ∧
    StorageModeForDomain (initStorageMode "bundle" none).1 100 "cyufsv.com" =
      "bundle" ∧
    GetStorageMode "BUNDLE" = "bundle" := by
  refine ⟨rfl, ?_, ?_, ?_⟩ <;> decide

/-- C9 amended: `GetStorageMode` (the per-store startup resolution in
bundle.go) is case-insensitive over the three recognized names and resolves
every empty or unrecognized value to `legacy`; the storagemode.go `init`
instead stores the raw environment value without case-normalization, so a
value such as `"BUNDLE"` configures a global mode that behaves as `legacy`. -/
theorem claim_C9_amended :
    (∀ s t : String, goToLower s = goToLower t →
      GetStorageMode s = GetStorageMode t) ∧
    GetStorageMode "" = StorageModeLegacy ∧
    (∀ s : String, goToLower s ≠ StorageModeLegacy →
      goToLower s ≠ StorageModeTransition → goToLower s ≠ StorageModeBundle →
      GetStorageMode s = StorageModeLegacy) ∧
    GetStorageMode "LEGACY" = StorageModeLegacy ∧
    GetStorageMode "Transition" = StorageModeTransition ∧
    GetStorageMode "BUNDLE" = StorageModeBundle ∧
    GetStorageMode "invalid" = StorageModeLegacy := by
  refine ⟨fun s t h => ?_, by decide, fun s h1 h2 h3 => ?_, by decide,
    by decide, by decide, by decide⟩
  · unfold GetStorageMode
    rw [h]
  · simp [GetStorageMode, h1, h2, h3]

/-- Witness for C9 (amended): a mixed-case spelling resolves like its
lower-case form, and an unrecognized value resolves to `legacy`. -/
theorem claim_C9_witness :
    GetStorageMode "TrAnSiTiOn" = GetStorageMode "transition" ∧
    GetStorageMode "bogus" = StorageModeLegacy :=
  ⟨claim_C9_amended.1 "TrAnSiTiOn" "transition" (by decide),
   claim_C9_amended.2.2.1 "bogus" (by decide) (by decide) (by decide)⟩

/-- C10: For every `CertStore` whose per-instance mode is any string other
than `legacy`, `transition`, or `bundle`, the operations `Save`, `Load`,
`Exists`, and `LoadPrivateKey` behave exactly as for a `CertStore` in `legacy`
mode, on every storage state and input. -/
theorem claim_C10_unknown_mode_acts_as_legacy
    (toA : String → Except String String) (m : String)
    (hm1 : m ≠ StorageModeLegacy) (hm2 : m ≠ StorageModeTransition)
    (hm3 : m ≠ StorageModeBundle) (now : GoTime) (s : Storage)
    (issuerKey name domain : String) (res : CertificateResource) :
    CertStore.Save ⟨m⟩ now s issuerKey res =
      CertStore.Save ⟨StorageModeLegacy⟩ now s issuerKey res ∧
    CertStore.Load toA ⟨m⟩ s issuerKey name =
      CertStore.Load toA ⟨StorageModeLegacy⟩ s issuerKey name ∧
    CertStore.Exists toA ⟨m⟩ s issuerKey domain =
      CertStore.Exists toA ⟨StorageModeLegacy⟩ s issuerKey domain ∧
    CertStore.LoadPrivateKey toA ⟨m⟩ s issuerKey domain =
      CertStore.LoadPrivateKey toA ⟨StorageModeLegacy⟩ s issuerKey domain := by
  refine ⟨?_, ?_, ?_, ?_⟩
  · simp [CertStore.Save, CertStore.saveLegacy, hm1, hm2, hm3]
  · unfold CertStore.Load
    cases hA : toA name with
    | error msg => rfl
    | ok n =>
      simp [CertStore.loadLegacy, hm1, hm2, hm3, legacy_ne_transition,
        legacy_ne_bundle]
  · unfold CertStore.Exists
    cases hA : toA domain with
    | error msg => rfl
    | ok n => simp [hm1, hm2, hm3, legacy_ne_transition, legacy_ne_bundle]
  · unfold CertStore.LoadPrivateKey
    cases hA : toA domain with
    | error msg => rfl
    | ok n => simp [hm1, hm2, hm3, legacy_ne_transition, legacy_ne_bundle]

/-- Witness for C10: the mode `"weird"` behaves as `legacy` on concrete
inputs. -/
theorem claim_C10_witness :
    CertStore.Save ⟨"weird"⟩ 0 emptyStorage "i" sampleRes =
      CertStore.Save ⟨StorageModeLegacy⟩ 0 emptyStorage "i" sampleRes ∧
    CertStore.Load okToA ⟨"weird"⟩ emptyStorage "i" "example.com" =
      CertStore.Load okToA ⟨StorageModeLegacy⟩ emptyStorage "i" "example.com" := by
  have h := claim_C10_unknown_mode_acts_as_legacy okToA "weird" (by decide)
    (by decide) (by decide) 0 emptyStorage "i" "example.com" "example.com"
    sampleRes
  exact ⟨h.1, h.2.1⟩

/-- C2 counterexample: in transition mode, with the bundle key holding bytes
that are present but fail to decode and a well-formed legacy triple alongside,
`Load` returns the bundle decode error instead of the result of the legacy
read (which succeeds). -/
theorem claim_C2_counterexample :
    CertStore.Load okToA ⟨"transition"⟩ undecodableBundleStorage "i" "d" =
      .error (.wrap "decoding certificate bundle" .jsonErr) ∧
    CertStore.loadLegacy ⟨"transition"⟩ undecodableBundleStorage "i" "d" =
      .ok ⟨["d"], .raw [2], .raw [1], "{}", "i"⟩ ∧
    CertStore.Load okToA ⟨"transition"⟩ undecodableBundleStorage "i" "d" ≠
      CertStore.loadLegacy ⟨"transition"⟩ undecodableBundleStorage "i" "d" := by
  refine ⟨rfl, rfl, fun h => ?_⟩
  exact Except.noConfusion
    (show (Except.error (GoErr.wrap "decoding certificate bundle" GoErr.jsonErr) :
        Except GoErr CertificateResource) =
      Except.ok ⟨["d"], Bytes.raw [2], Bytes.raw [1], "{}", "i"⟩ from h)

/-- C2 amended: in transition or bundle mode, for every storage state, `Load`
first attempts the bundle key and falls back to the full legacy three-key read
exactly when the bundle backend load fails (including simple absence); when
the bundle loads, `Load` returns `decodeBundle`'s result, so a bundle payload
that is present but fails to decode yields the decode error, with no legacy
fallback. -/
theorem claim_C2_bundle_load_fallback (toA : String → Except String String)
    (cs : CertStore) (s : Storage) (issuerKey name n : String)
    (hmode : cs.mode = StorageModeTransition ∨ cs.mode = StorageModeBundle)
    (hA : toA name = .ok n) :
    (∀ e, s.load (SKey.SiteBundle issuerKey n) = .error e →
      cs.Load toA s issuerKey name = cs.loadLegacy s issuerKey n) ∧
    (∀ v, s.load (SKey.SiteBundle issuerKey n) = .ok v →
      cs.Load toA s issuerKey name = cs.decodeBundle v issuerKey) ∧
    (∀ bs, s.load (SKey.SiteBundle issuerKey n) = .ok (.raw bs) →
      cs.Load toA s issuerKey name =
        .error (.wrap "decoding certificate bundle" .jsonErr)) := by
  have hne : cs.mode ≠ StorageModeLegacy := by
    rcases hmode with h | h
    · exact h ▸ transition_ne_legacy
    · exact h ▸ bundle_ne_legacy
  refine ⟨fun e hL => ?_, fun v hL => ?_, fun bs hL => ?_⟩ <;>
    simp [CertStore.Load, hA, hne, hmode, hL, CertStore.decodeBundle,
      Bytes.unmarshalBundle]

/-- Witness for C2 (amended): with an absent bundle key, `Load` in transition
mode equals the legacy read; with a loadable bundle, it equals the decode of
those bytes. -/
theorem claim_C2_witness :
    CertStore.Load okToA ⟨"transition"⟩ legacyTripleStorage "i" "example.com" =
      CertStore.loadLegacy ⟨"transition"⟩ legacyTripleStorage "i" "example.com" ∧
    CertStore.Load okToA ⟨"transition"⟩ undecodableBundleStorage "i" "d" =
      CertStore.decodeBundle ⟨"transition"⟩ (.raw [45]) "i" := by
  have h1 := claim_C2_bundle_load_fallback okToA ⟨"transition"⟩
    legacyTripleStorage "i" "example.com" "example.com" (Or.inl rfl) rfl
  have h2 := claim_C2_bundle_load_fallback okToA ⟨"transition"⟩
    undecodableBundleStorage "i" "d" "d" (Or.inl rfl) rfl
  exact ⟨h1.1 .errNotExist rfl, h2.2.1 (.raw [45]) rfl⟩

/-- C3: For every certificate resource and every fixed storage mode (legacy,
transition, or bundle), on a fault-free backend, `Save` succeeds and a `Load`
for the same issuer and identity returns a resource equal to the one saved in
certificate bytes, private-key bytes, SANs, and issuer data (the issuer-data
payload compared as its JSON value, as the repository's own round-trip test
does). -/
theorem claim_C3_save_load_roundtrip (toA : String → Except String String)
    (cs : CertStore) (now : GoTime) (s : Storage) (issuerKey name : String)
    (res : CertificateResource)
    (_hmode : cs.mode = StorageModeLegacy ∨ cs.mode = StorageModeTransition ∨
      cs.mode = StorageModeBundle)
    (hnf : noFaults s) (hA : toA name = .ok res.NamesKey) :
    (cs.Save now s issuerKey res).1 = .ok () ∧
    cs.Load toA (cs.Save now s issuerKey res).2 issuerKey name =
      .ok ⟨res.SANs, res.CertificatePEM, res.PrivateKeyPEM, res.IssuerData,
        issuerKey⟩ :=
  save_load_roundtrip toA cs now s issuerKey name res hnf hA

/-- Witness for C3: a concrete round trip through transition mode on the empty
fault-free backend. -/
theorem claim_C3_witness :
    (CertStore.Save ⟨"transition"⟩ 3 emptyStorage "i" sampleRes).1 = .ok () ∧
    CertStore.Load okToA ⟨"transition"⟩
        (CertStore.Save ⟨"transition"⟩ 3 emptyStorage "i" sampleRes).2 "i"
        "example.com" =
      .ok ⟨["example.com"], .raw [10], .raw [11], "{}", "i"⟩ :=
  claim_C3_save_load_roundtrip okToA ⟨"transition"⟩ 3 emptyStorage "i"
    "example.com" sampleRes (Or.inr (Or.inl rfl)) ⟨rfl, rfl, rfl⟩ rfl

theorem exists_false_data_none {st : Storage} {k : SKey}
    (h : st.exists k = false) : st.data k = none := by
  cases hv : st.data k with
  | none => rfl
  | some v =>
    rw [Storage.exists, hv] at h
    simp at h

/-- C5 counterexample: with only the legacy certificate key present and its
deletion failing at the backend, `Delete` returns success (the legacy-deletion
failure is only logged), leaving the key in place — so legacy-key deletion
failures are not part of the returned error. -/
theorem claim_C5_counterexample :
    (CertStore.Delete okToA ⟨"legacy"⟩ failingLegacyDeleteStorage "i" "d").1 =
      .ok () ∧
    ((CertStore.Delete okToA ⟨"legacy"⟩ failingLegacyDeleteStorage "i" "d").2).data
      (SKey.SiteCert "i" "d") = some (.raw [2]) :=
  ⟨rfl, rfl⟩

/-- C5 amended: for every issuer and domain, `Delete` attempts removal of the
bundle key and of all three legacy keys regardless of the configured mode;
only a failure to delete the bundle key is returned (wrapped and joined),
while legacy-key deletion failures and a failure to remove the site-prefix key
are only logged and never cause `Delete` to return an error. -/
theorem claim_C5_delete_error_handling (toA : String → Except String String)
    (cs : CertStore) (s : Storage) (issuerKey domain n : String)
    (hA : toA domain = .ok n) :
    (∀ cs' : CertStore, cs.Delete toA s issuerKey domain =
      cs'.Delete toA s issuerKey domain) ∧
    (s.exists (SKey.SiteBundle issuerKey n) = true →
      s.deleteFails (SKey.SiteBundle issuerKey n) = true →
      (cs.Delete toA s issuerKey domain).1 =
        .error (.joined [.wrap "deleting bundle"
          (.backendDelete (SKey.SiteBundle issuerKey n))])) ∧
    (s.exists (SKey.SiteBundle issuerKey n) = false ∨
      s.deleteFails (SKey.SiteBundle issuerKey n) = false →
      (cs.Delete toA s issuerKey domain).1 = .ok ()) ∧
    (s.deleteFails (SKey.SiteBundle issuerKey n) = false →
      ((cs.Delete toA s issuerKey domain).2).data (SKey.SiteBundle issuerKey n) =
        none) ∧
    (s.deleteFails (SKey.SiteCert issuerKey n) = false →
      ((cs.Delete toA s issuerKey domain).2).data (SKey.SiteCert issuerKey n) =
        none) ∧
    (s.deleteFails (SKey.SitePrivateKey issuerKey n) = false →
      ((cs.Delete toA s issuerKey domain).2).data
        (SKey.SitePrivateKey issuerKey n) = none) ∧
    (s.deleteFails (SKey.SiteMeta issuerKey n) = false →
      ((cs.Delete toA s issuerKey domain).2).data (SKey.SiteMeta issuerKey n) =
        none) := by
  refine ⟨fun cs' => ?_, fun hex hdf => ?_, fun hor => ?_, fun hdf => ?_,
    fun hdf => ?_, fun hdf => ?_, fun hdf => ?_⟩
  · simp only [CertStore.Delete, hA, CertStore.deleteLegacyFiles]
  · simp [CertStore.Delete, hA, hex, Storage.delete, hdf]
  · rcases hor with hex | hdf
    · simp [CertStore.Delete, hA, hex]
    · by_cases hex2 : s.exists (SKey.SiteBundle issuerKey n) <;>
        simp [CertStore.Delete, hA, hex2, Storage.delete, hdf]
  · by_cases hex : s.exists (SKey.SiteBundle issuerKey n)
    · simp [CertStore.Delete, hA, hex, Storage.delete, hdf, delIfExists_data,
        deleteLegacyFiles_data, deleteLegacyFiles_deleteFails,
        delIfExists_deleteFails, apply_ite Prod.snd]
    · simp [CertStore.Delete, hA, hex, delIfExists_data, deleteLegacyFiles_data,
        deleteLegacyFiles_deleteFails, delIfExists_deleteFails,
        exists_false_data_none (Bool.not_eq_true _ ▸ hex),
        apply_ite Prod.snd]
  · by_cases hex : s.exists (SKey.SiteBundle issuerKey n) <;>
      by_cases hdfb : s.deleteFails (SKey.SiteBundle issuerKey n) <;>
      simp [CertStore.Delete, hA, hex, hdfb, Storage.delete, hdf,
        delIfExists_data, deleteLegacyFiles_data, deleteLegacyFiles_deleteFails,
        delIfExists_deleteFails, apply_ite Prod.snd]
  · by_cases hex : s.exists (SKey.SiteBundle issuerKey n) <;>
      by_cases hdfb : s.deleteFails (SKey.SiteBundle issuerKey n) <;>
      simp [CertStore.Delete, hA, hex, hdfb, Storage.delete, hdf,
        delIfExists_data, deleteLegacyFiles_data, deleteLegacyFiles_deleteFails,
        delIfExists_deleteFails, apply_ite Prod.snd]
  · by_cases hex : s.exists (SKey.SiteBundle issuerKey n) <;>
      by_cases hdfb : s.deleteFails (SKey.SiteBundle issuerKey n) <;>
      simp [CertStore.Delete, hA, hex, hdfb, Storage.delete, hdf,
        delIfExists_data, deleteLegacyFiles_data, deleteLegacyFiles_deleteFails,
        delIfExists_deleteFails, apply_ite Prod.snd]

/-- Witness for C5 (amended): on a fault-free backend holding both a bundle
and a legacy triple, `Delete` succeeds and removes all four keys. -/
theorem claim_C5_witness :
    (CertStore.Delete okToA ⟨"bundle"⟩ undecodableBundleStorage "i" "d").1 =
      .ok () ∧
    ((CertStore.Delete okToA ⟨"bundle"⟩ undecodableBundleStorage "i" "d").2).data
      (SKey.SiteBundle "i" "d") = none ∧
    ((CertStore.Delete okToA ⟨"bundle"⟩ undecodableBundleStorage "i" "d").2).data
      (SKey.SiteCert "i" "d") = none ∧
    ((CertStore.Delete okToA ⟨"bundle"⟩ undecodableBundleStorage "i" "d").2).data
      (SKey.SitePrivateKey "i" "d") = none ∧
    ((CertStore.Delete okToA ⟨"bundle"⟩ undecodableBundleStorage "i" "d").2).data
      (SKey.SiteMeta "i" "d") = none := by
  have h := claim_C5_delete_error_handling okToA ⟨"bundle"⟩
    undecodableBundleStorage "i" "d" "d" rfl
  exact ⟨h.2.2.1 (Or.inr rfl), h.2.2.2.1 rfl, h.2.2.2.2.1 rfl,
    h.2.2.2.2.2.1 rfl, h.2.2.2.2.2.2 rfl⟩

/-- C6 counterexample: with a prior bundle whose `CreatedAt` is the zero time,
a bundle write at time 5 stores `CreatedAt = 5`, not the prior bundle's
`CreatedAt` (0) — so a prior bundle's `CreatedAt` is not always preserved. -/
theorem claim_C6_counterexample :
    zeroCreatedAtStorage.data (SKey.SiteBundle "i" "example.com") =
      some (.bundleJson 1 [] (.raw []) (.raw []) "" 0 3) ∧
    ((CertStore.saveBundle ⟨"bundle"⟩ 5 zeroCreatedAtStorage "i" "example.com"
        sampleRes).2).data (SKey.SiteBundle "i" "example.com") =
      some (.bundleJson 1 ["example.com"] (.raw [10]) (.raw [11]) "{}" 5 5) ∧
    (5 : GoTime) ≠ 0 :=
  ⟨rfl, rfl, by decide⟩

/-- C6 amended: every bundle write stores `UpdatedAt = now` (refreshed on
every write) and carries the prior bundle's `CreatedAt` forward exactly when a
prior bundle is present, readable, decodable and has a nonzero `CreatedAt`;
otherwise (no prior bundle, unreadable or undecodable prior bytes, or a prior
zero `CreatedAt`) the written `CreatedAt` equals the new `UpdatedAt`. -/
theorem claim_C6_created_at_preserved (cs : CertStore) (now : GoTime)
    (s : Storage) (i ck : String) (res : CertificateResource)
    (hst : s.storeFails (SKey.SiteBundle i ck) = false) :
    ∃ ca : GoTime,
      cs.saveBundle now s i ck res = (.ok (), { s with data := fun k =>
        (if k = SKey.SiteBundle i ck then
          some (.bundleJson BundleVersion res.SANs res.CertificatePEM
            res.PrivateKeyPEM res.IssuerData ca now)
        else s.data k) }) ∧
      (s.data (SKey.SiteBundle i ck) = none → ca = now) ∧
      (∀ v, s.data (SKey.SiteBundle i ck) = some v →
        s.loadFails (SKey.SiteBundle i ck) = true → ca = now) ∧
      (∀ v p, s.data (SKey.SiteBundle i ck) = some v →
        s.loadFails (SKey.SiteBundle i ck) = false →
        v.unmarshalBundle = some p → p.CreatedAt ≠ 0 → ca = p.CreatedAt) ∧
      (∀ v p, s.data (SKey.SiteBundle i ck) = some v →
        s.loadFails (SKey.SiteBundle i ck) = false →
        v.unmarshalBundle = some p → p.CreatedAt = 0 → ca = now) ∧
      (∀ v, s.data (SKey.SiteBundle i ck) = some v →
        s.loadFails (SKey.SiteBundle i ck) = false →
        v.unmarshalBundle = none → ca = now) := by
  unfold CertStore.saveBundle
  by_cases hlf : s.loadFails (SKey.SiteBundle i ck)
  · refine ⟨now, ?_, fun _ => rfl, fun _ _ _ => rfl, ?_, ?_, ?_⟩
    · simp [Storage.load, hlf, Storage.store, hst, CertificateBundle.marshal]
    · intro v p _ hl2 _ _
      simp [hl2] at hlf
    · intro v p _ hl2 _ _
      simp [hl2] at hlf
    · intro v _ hl2 _
      simp [hl2] at hlf
  · cases hD : s.data (SKey.SiteBundle i ck) with
    | none =>
      refine ⟨now, ?_, fun _ => rfl, fun _ hd _ => Option.noConfusion hd,
        ?_, ?_, ?_⟩
      · simp [Storage.load, hlf, hD, Storage.store, hst,
          CertificateBundle.marshal]
      · intro v p hd _ _ _
        exact Option.noConfusion hd
      · intro v p hd _ _ _
        exact Option.noConfusion hd
      · intro v hd _ _
        exact Option.noConfusion hd
    | some v0 =>
      cases hU : v0.unmarshalBundle with
      | none =>
        refine ⟨now, ?_, ?_, fun _ _ hl2 => absurd hl2 hlf, ?_, ?_,
          fun _ _ _ _ => rfl⟩
        · simp [Storage.load, hlf, hD, hU, Storage.store, hst,
            CertificateBundle.marshal]
        · intro hd
          exact Option.noConfusion hd
        · intro v p hd _ hu _
          rw [← Option.some.inj hd, hU] at hu
          exact Option.noConfusion hu
        · intro v p hd _ hu _
          rw [← Option.some.inj hd, hU] at hu
      | some p0 =>
        by_cases hz : p0.CreatedAt = 0
        · refine ⟨now, ?_, ?_, fun _ _ hl2 => absurd hl2 hlf, ?_,
            fun _ _ _ _ _ _ => rfl, ?_⟩
          · simp [Storage.load, hlf, hD, hU, hz, Storage.store, hst,
              CertificateBundle.marshal]
          · intro hd
            exact Option.noConfusion hd
          · intro v p hd _ hu hnz
            rw [← Option.some.inj hd, hU] at hu
            exact absurd (Option.some.inj hu ▸ hz) hnz
          · intro v hd _ hu
            rw [← Option.some.inj hd, hU] at hu
        · refine ⟨p0.CreatedAt, ?_, ?_, fun _ _ hl2 => absurd hl2 hlf,
            ?_, ?_, ?_⟩
          · simp [Storage.load, hlf, hD, hU, hz, Storage.store, hst,
              CertificateBundle.marshal]
          · intro hd
            exact Option.noConfusion hd
          · intro v p hd _ hu _
            rw [← Option.some.inj hd, hU] at hu
            exact Option.some.inj hu ▸ rfl
          · intro v p hd _ hu h0
            rw [← Option.some.inj hd, hU] at hu
            rw [← Option.some.inj hu] at h0
            exact absurd h0 hz
          · intro v hd _ hu
            rw [← Option.some.inj hd, hU] at hu
            exact Option.noConfusion hu

/-- Witness for C6 (amended): a first bundle write at time 5 on the empty
backend stores `CreatedAt = UpdatedAt = 5`. -/
theorem claim_C6_witness :
    (CertStore.saveBundle ⟨"bundle"⟩ 5 emptyStorage "i" "d" sampleRes).1 =
      .ok () ∧
    ((CertStore.saveBundle ⟨"bundle"⟩ 5 emptyStorage "i" "d" sampleRes).2).data
      (SKey.SiteBundle "i" "d") =
      some (.bundleJson 1 ["example.com"] (.raw [10]) (.raw [11]) "{}" 5 5) := by
  obtain ⟨ca, h1, h2, -, -, -, -⟩ :=
    claim_C6_created_at_preserved ⟨"bundle"⟩ 5 emptyStorage "i" "d" sampleRes rfl
  have hca : ca = 5 := h2 rfl
  subst hca
  rw [h1]
  exact ⟨rfl, rfl⟩

/-- C4: `Migrate` is idempotent: if a bundle already exists at the identity's
bundle key it returns success and leaves storage unchanged; and on a fault-free
backend, calling `Migrate` twice on a domain that has a (well-formed) legacy
certificate succeeds both times and leaves exactly one bundle key and zero
legacy keys for that identity. -/
theorem claim_C4_migrate_idempotent (toA : String → Except String String)
    (cs : CertStore) (now now2 : GoTime) (s : Storage)
    (issuerKey domain n : String) (hA : toA domain = .ok n) :
    (s.exists (SKey.SiteBundle issuerKey n) = true →
      cs.Migrate toA now s issuerKey domain = (.ok (), s)) ∧
    (noFaults s → s.data (SKey.SiteBundle issuerKey n) = none →
      ∀ kv cv sans isd,
        s.data (SKey.SitePrivateKey issuerKey n) = some kv →
        s.data (SKey.SiteCert issuerKey n) = some cv →
        s.data (SKey.SiteMeta issuerKey n) = some (.metaJson sans isd) →
        (cs.Migrate toA now s issuerKey domain).1 = .ok () ∧
        cs.Migrate toA now2 (cs.Migrate toA now s issuerKey domain).2 issuerKey
          domain = (.ok (), (cs.Migrate toA now s issuerKey domain).2) ∧
        ((cs.Migrate toA now s issuerKey domain).2).data
          (SKey.SiteBundle issuerKey n) =
          some (.bundleJson BundleVersion sans cv kv isd now now) ∧
        ((cs.Migrate toA now s issuerKey domain).2).data
          (SKey.SiteCert issuerKey n) = none ∧
        ((cs.Migrate toA now s issuerKey domain).2).data
          (SKey.SitePrivateKey issuerKey n) = none ∧
        ((cs.Migrate toA now s issuerKey domain).2).data
          (SKey.SiteMeta issuerKey n) = none) := by
  constructor
  · intro hex
    simp [CertStore.Migrate, hA, hex]
  · intro hnf hB kv cv sans isd hk hc hm
    obtain ⟨hl, hst, hd⟩ := hnf
    have hMig : cs.Migrate toA now s issuerKey domain =
        (.ok (), { s with data := fun k =>
          (if k = SKey.SiteMeta issuerKey n then none
          else if k = SKey.SitePrivateKey issuerKey n then none
          else if k = SKey.SiteCert issuerKey n then none
          else if k = SKey.SiteBundle issuerKey n then
            some (.bundleJson BundleVersion sans cv kv isd now now)
          else s.data k) }) := by
      simp [CertStore.Migrate, hA, Storage.exists, hB, hc, hk, hm,
        CertStore.loadLegacy, Storage.load, hl, CertStore.saveBundle,
        Storage.store, hst, CertificateBundle.marshal, Bytes.unmarshalMeta,
        CertStore.deleteLegacyFiles, delIfExists, Storage.delete, hd]
    rw [hMig]
    refine ⟨rfl, ?_, by simp, by simp, by simp, by simp⟩
    simp [CertStore.Migrate, hA, Storage.exists]

/-- Witness for C4: migrating `("i", "example.com")` out of a concrete legacy
triple succeeds twice, leaving one bundle key and zero legacy keys. -/
theorem claim_C4_witness :
    (CertStore.Migrate okToA ⟨"bundle"⟩ 5 legacyTripleStorage "i"
      "example.com").1 = .ok () ∧
    CertStore.Migrate okToA ⟨"bundle"⟩ 7
      (CertStore.Migrate okToA ⟨"bundle"⟩ 5 legacyTripleStorage "i"
        "example.com").2 "i" "example.com" =
      (.ok (), (CertStore.Migrate okToA ⟨"bundle"⟩ 5 legacyTripleStorage "i"
        "example.com").2) ∧
    ((CertStore.Migrate okToA ⟨"bundle"⟩ 5 legacyTripleStorage "i"
      "example.com").2).data (SKey.SiteBundle "i" "example.com") =
      some (.bundleJson BundleVersion ["example.com"] (.raw [3]) (.raw [4])
        "{}" 5 5) ∧
    ((CertStore.Migrate okToA ⟨"bundle"⟩ 5 legacyTripleStorage "i"
      "example.com").2).data (SKey.SiteCert "i" "example.com") = none ∧
    ((CertStore.Migrate okToA ⟨"bundle"⟩ 5 legacyTripleStorage "i"
      "example.com").2).data (SKey.SitePrivateKey "i" "example.com") = none ∧
    ((CertStore.Migrate okToA ⟨"bundle"⟩ 5 legacyTripleStorage "i"
      "example.com").2).data (SKey.SiteMeta "i" "example.com") = none :=
  (claim_C4_migrate_idempotent okToA ⟨"bundle"⟩ 5 7 legacyTripleStorage "i"
    "example.com" "example.com" rfl).2 ⟨rfl, rfl, rfl⟩ rfl (.raw [4]) (.raw [3])
    ["example.com"] "{}" rfl rfl rfl

/-- C7: `UpdateMetadata` changes only the opaque issuer-data payload: if the
update function fails, no write occurs at all (the state is returned
unchanged); and on a fault-free backend a successful `UpdateMetadata` leaves
the stored certificate bytes and private-key bytes unchanged — a `Load` after
the call returns the same certificate and key bytes (and SANs) as the `Load`
before it, with only the issuer data replaced. -/
theorem claim_C7_update_metadata_frame (toA : String → Except String String)
    (cs : CertStore) (now : GoTime) (s : Storage) (issuerKey n : String)
    (updateFn : String → Except String String) (hA : toA n = .ok n) :
    (∀ res msg, cs.Load toA s issuerKey n = .ok res →
      updateFn res.IssuerData = .error msg →
      cs.UpdateMetadata toA now s issuerKey n updateFn =
        (.error (.wrap "updating metadata" (.user msg)), s)) ∧
    (noFaults s → ∀ res newData, cs.Load toA s issuerKey n = .ok res →
      res.NamesKey = n → updateFn res.IssuerData = .ok newData →
      (cs.UpdateMetadata toA now s issuerKey n updateFn).1 = .ok () ∧
      cs.Load toA (cs.UpdateMetadata toA now s issuerKey n updateFn).2
        issuerKey n =
        .ok ⟨res.SANs, res.CertificatePEM, res.PrivateKeyPEM, newData,
          issuerKey⟩) := by
  constructor
  · intro res msg hLoad hFn
    simp [CertStore.UpdateMetadata, hA, hLoad, hFn]
  · intro hnf res newData hLoad hNK hFn
    have hUM : cs.UpdateMetadata toA now s issuerKey n updateFn =
        cs.Save now s issuerKey { res with IssuerData := newData } := by
      simp [CertStore.UpdateMetadata, hA, hLoad, hFn]
    rw [hUM]
    have hA2 : toA n =
        .ok (CertificateResource.NamesKey { res with IssuerData := newData }) := by
      show toA n = .ok res.NamesKey
      rw [hNK]
      exact hA
    exact save_load_roundtrip toA cs now s issuerKey n _ hnf hA2

/-- Witness for C7: updating the issuer data of a stored legacy resource to
`"v2"` succeeds and preserves the certificate and key bytes. -/
theorem claim_C7_witness :
    (CertStore.UpdateMetadata okToA ⟨"legacy"⟩ 9 legacyTripleStorage "i"
      "example.com" (fun _ => .ok "v2")).1 = .ok () ∧
    CertStore.Load okToA ⟨"legacy"⟩
      (CertStore.UpdateMetadata okToA ⟨"legacy"⟩ 9 legacyTripleStorage "i"
        "example.com" (fun _ => .ok "v2")).2 "i" "example.com" =
      .ok ⟨["example.com"], .raw [3], .raw [4], "v2", "i"⟩ :=
  (claim_C7_update_metadata_frame okToA ⟨"legacy"⟩ 9 legacyTripleStorage "i"
    "example.com" (fun _ => .ok "v2") rfl).2 ⟨rfl, rfl, rfl⟩
    ⟨["example.com"], .raw [3], .raw [4], "{}", "i"⟩ "v2" rfl rfl rfl

end Certmagic

